import Mathlib

/-!
Shallow embedding of the Aurora build / deployment tooling
(Scripts/installExternals.py, Scripts/installExternalsFunctions.py,
Scripts/deployHdAurora.py, Scripts/minifyShaders.py) and proofs of the
specification claims about it.

File systems are modelled as functions from path strings to optional file
contents; Python OS-level mutation becomes explicit state passing.  The
process-level side effects that matter to the claims (writes performed,
external commands executed, console notices) are returned as explicit
traces alongside the resulting file-system state.
-/

namespace Aurora

/-- A flat file system: a path maps to the content of the file stored
there, or to `none` when no such file exists. -/
def FileSys : Type := String → Option String

/-- Write (or overwrite) the file at path `p` with content `c`
(embeds Python `open(p, "wt"); write(c)`). -/
def setFile (fs : FileSys) (p c : String) : FileSys :=
  fun q => if q = p then some c else fs q

/-- Delete the file at path `p` (embeds `os.remove(p)`). -/
def removeFile (fs : FileSys) (p : String) : FileSys :=
  fun q => if q = p then none else fs q

/-- Delete the file at `p` only when it is present (embeds the
`if os.path.exists(p): os.remove(p)` pattern). -/
def removeIfPresent (fs : FileSys) (p : String) : FileSys :=
  if (fs p).isSome then removeFile fs p else fs

/-- Rename the file at `src` to `dst` (embeds `shutil.move(src, dst)` for a
plain file). -/
def shutilMove (fs : FileSys) (src dst : String) : FileSys :=
  fun q => if q = dst then fs src else if q = src then none else fs q

/-- Path concatenation; the scripts run the install loop with POSIX-style
separators (embeds `os.path.join(a, b)` for non-absolute `b`). -/
def pathJoin (a b : String) : String := a ++ "/" ++ b

/-- `scriptVersion = "00001"` from installExternals.py: bumping it
invalidates every cached install. -/
def scriptVersion : String := "00001"

/-- One third-party library descriptor (class `Dependency` in
installExternals.py).  `installFolder` is assigned `name` by the
constructor, so it is represented by `Dependency.installFolder` below. -/
structure Dependency where
  name : String
  packageName : String
  versionString : String
  filesToCheck : List String
deriving DecidableEq, Repr

/-- `self.installFolder = name` in `Dependency.__init__`. -/
def Dependency.installFolder (d : Dependency) : String := d.name

/-- The slice of `InstallContext` that the staleness / rebuild-selection
logic reads: the install root, the `--force-all` flag, the lowercased
`--force` names, and the three build-variant booleans. -/
structure InstallContext where
  externalsInstDir : String
  forceBuildAll : Bool
  forceBuild : List String
  buildDebug : Bool
  buildRelease : Bool
  buildRelWithDebInfo : Bool

/-- `Dependency.Exists(context)`: every relative path in `filesToCheck`
must exist under `<externalsInstDir>/<installFolder>`. -/
def Dependency.existsIn (d : Dependency) (ctx : InstallContext) (fs : FileSys) : Bool :=
  d.filesToCheck.all
    (fun f => (fs (pathJoin (pathJoin ctx.externalsInstDir d.installFolder) f)).isSome)

/-- Path of the `<packageName>.version.txt` stamp file under the install
root. -/
def stampPath (ctx : InstallContext) (packageName : String) : String :=
  pathJoin ctx.externalsInstDir (packageName ++ ".version.txt")

/-- `CheckVersion(context, packageName, versionString)`: true iff the stamp
file exists and its content is exactly `<scriptVersion>:<versionString>`. -/
def CheckVersion (ctx : InstallContext) (fs : FileSys)
    (packageName versionString : String) : Bool :=
  match fs (stampPath ctx packageName) with
  | none => false
  | some txt => txt = scriptVersion ++ ":" ++ versionString

/-- `Dependency.IsUpToDate(context)`: existence probe AND stamp check. -/
def Dependency.isUpToDate (d : Dependency) (ctx : InstallContext) (fs : FileSys) : Bool :=
  d.existsIn ctx fs && CheckVersion ctx fs d.packageName d.versionString

/-- `InstallContext.ForceBuildDependency(dep)`: the global `--force-all`
flag, or the dependency's lowercased name in the `--force` list. -/
def ForceBuildDependency (ctx : InstallContext) (d : Dependency) : Bool :=
  ctx.forceBuildAll || ctx.forceBuild.contains d.name.toLower

/-- One iteration of the `dependenciesToBuild` selection loop in
installExternals.py: append `dep` when it is forced or not up to date and
not already selected. -/
def buildListStep (ctx : InstallContext) (fs : FileSys)
    (acc : List Dependency) (dep : Dependency) : List Dependency :=
  if ForceBuildDependency ctx dep || !dep.isUpToDate ctx fs then
    if acc.contains dep then acc else acc ++ [dep]
  else acc

/-- The `dependenciesToBuild` list computed by installExternals.py from the
required-dependency list. -/
def dependenciesToBuild (ctx : InstallContext) (fs : FileSys)
    (required : List Dependency) : List Dependency :=
  required.foldl (buildListStep ctx fs) []

lemma mem_foldl_buildListStep (ctx : InstallContext) (fs : FileSys)
    (dep : Dependency) :
    ∀ (reqs acc : List Dependency),
      dep ∈ reqs.foldl (buildListStep ctx fs) acc ↔
        dep ∈ acc ∨ (dep ∈ reqs ∧
          (ForceBuildDependency ctx dep || !dep.isUpToDate ctx fs) = true) := by
  intro reqs
  induction reqs with
  | nil => intro acc; simp
  | cons d rest ih =>
    intro acc
    rw [List.foldl_cons, ih]
    unfold buildListStep
    by_cases hsel : (ForceBuildDependency ctx d || !d.isUpToDate ctx fs) = true
    · rw [if_pos hsel]
      by_cases hin : acc.contains d
      · rw [if_pos hin]
        constructor
        · rintro (h | h)
          · exact Or.inl h
          · exact Or.inr ⟨List.mem_cons_of_mem _ h.1, h.2⟩
        · rintro (h | ⟨hmem, hcond⟩)
          · exact Or.inl h
          · rcases List.mem_cons.mp hmem with rfl | hmem'
            · exact Or.inl (List.elem_iff.mp hin)
            · exact Or.inr ⟨hmem', hcond⟩
      · rw [if_neg hin]
        constructor
        · rintro (h | h)
          · rcases List.mem_append.mp h with h' | h'
            · exact Or.inl h'
            · rcases List.mem_singleton.mp h' with rfl
              exact Or.inr ⟨List.mem_cons_self _ _, hsel⟩
          · exact Or.inr ⟨List.mem_cons_of_mem _ h.1, h.2⟩
        · rintro (h | ⟨hmem, hcond⟩)
          · exact Or.inl (List.mem_append.mpr (Or.inl h))
          · rcases List.mem_cons.mp hmem with rfl | hmem'
            · exact Or.inl (List.mem_append.mpr (Or.inr (List.mem_singleton.mpr rfl)))
            · exact Or.inr ⟨hmem', hcond⟩
    · rw [if_neg hsel]
      constructor
      · rintro (h | h)
        · exact Or.inl h
        · exact Or.inr ⟨List.mem_cons_of_mem _ h.1, h.2⟩
      · rintro (h | ⟨hmem, hcond⟩)
        · exact Or.inl h
        · rcases List.mem_cons.mp hmem with rfl | hmem'
          · exact absurd hcond hsel
          · exact Or.inr ⟨hmem', hcond⟩

/-- C1: a required dependency is selected for (re)installation iff the
global force-all flag is set, or its lowercased name is in the
forced-rebuild list, or its existence probe (every path in `filesToCheck`
under the install folder) fails, or the content of its
`<packageName>.version.txt` stamp does not exactly equal
`<scriptVersion>:<versionString>` (`CheckVersion = false`); a dependency
satisfying none of these is skipped by the install loop. -/
theorem c1_rebuild_selection (ctx : InstallContext) (fs : FileSys)
    (reqs : List Dependency) (dep : Dependency) (hmem : dep ∈ reqs) :
    dep ∈ dependenciesToBuild ctx fs reqs ↔
      (ctx.forceBuildAll = true ∨
       dep.name.toLower ∈ ctx.forceBuild ∨
       dep.existsIn ctx fs = false ∨
       CheckVersion ctx fs dep.packageName dep.versionString = false) := by
  unfold dependenciesToBuild
  rw [mem_foldl_buildListStep]
  simp only [List.not_mem_nil, false_or]
  constructor
  · rintro ⟨-, hcond⟩
    rcases Bool.or_eq_true _ _ |>.mp hcond with hf | hnot
    · unfold ForceBuildDependency at hf
      rcases Bool.or_eq_true _ _ |>.mp hf with h | h
      · exact Or.inl h
      · exact Or.inr (Or.inl (List.elem_iff.mp h))
    · unfold Dependency.isUpToDate at hnot
      simp only [Bool.not_eq_eq_eq_not, Bool.not_true] at hnot
      rcases Bool.and_eq_false_iff.mp hnot with h | h
      · exact Or.inr (Or.inr (Or.inl h))
      · exact Or.inr (Or.inr (Or.inr h))
  · intro h
    refine ⟨hmem, ?_⟩
    rcases h with h | h | h | h
    · exact Bool.or_eq_true _ _ |>.mpr (Or.inl
        (Bool.or_eq_true _ _ |>.mpr (Or.inl h)))
    · exact Bool.or_eq_true _ _ |>.mpr (Or.inl
        (Bool.or_eq_true _ _ |>.mpr (Or.inr (List.elem_iff.mpr h))))
    · refine Bool.or_eq_true _ _ |>.mpr (Or.inr ?_)
      simp [Dependency.isUpToDate, h]
    · refine Bool.or_eq_true _ _ |>.mpr (Or.inr ?_)
      simp [Dependency.isUpToDate, h]

/-- Witness for C1: with `--force-all` set, a required dependency is
selected even though nothing else about it is stale. -/
theorem c1_rebuild_selection_witness :
    (⟨"zlib", "ZLIB", "u", ["include/zlib.h"]⟩ : Dependency) ∈
      dependenciesToBuild ⟨"/ext", true, [], false, true, false⟩
        (fun _ => none) [⟨"zlib", "ZLIB", "u", ["include/zlib.h"]⟩] :=
  (c1_rebuild_selection ⟨"/ext", true, [], false, true, false⟩ (fun _ => none)
    [⟨"zlib", "ZLIB", "u", ["include/zlib.h"]⟩] _
    (List.mem_singleton.mpr rfl)).mpr (Or.inl rfl)

/-! ### The declared dependency set (installExternals.py, module level)

Each descriptor carries the literal name, cmake package name, version
string (URL or pinned SHA) and existence-probe file list from the source.
Descriptors whose URL or probe file differs between Windows and Linux take
a `linux : Bool` parameter mirroring the `if Windows(): ... else: ...`
blocks in the source. -/

def ZLIB : Dependency :=
  ⟨"zlib", "ZLIB", "https://github.com/madler/zlib/archive/v1.2.13.zip",
   ["include/zlib.h"]⟩

/-- `BOOST_VERSION_FILE`: platform-dependent because the Windows install
places headers in a versioned subdirectory. -/
def boostVersionFile (linux : Bool) : String :=
  if linux then "include/boost/version.hpp"
  else "include/boost-1_78/boost/version.hpp"

def BOOST (linux : Bool) : Dependency :=
  ⟨"boost", "Boost",
   "https://boostorg.jfrog.io/artifactory/main/release/1.78.0/source/boost_1_78_0.tar.gz",
   [boostVersionFile linux]⟩

def TBB (linux : Bool) : Dependency :=
  ⟨"tbb", "TBB",
   if linux then "https://github.com/oneapi-src/oneTBB/archive/refs/tags/2019_U6.tar.gz"
   else "https://github.com/oneapi-src/oneTBB/releases/download/2019_U6/tbb2019_20190410oss_win.zip",
   ["include/tbb/tbb.h"]⟩

def JPEG : Dependency :=
  ⟨"libjpeg", "JPEG", "https://github.com/libjpeg-turbo/libjpeg-turbo/archive/1.5.1.zip",
   ["include/jpeglib.h"]⟩

def TIFF : Dependency :=
  ⟨"libtiff", "TIFF", "https://gitlab.com/libtiff/libtiff/-/archive/v4.0.7/libtiff-v4.0.7.tar.gz",
   ["include/tiff.h"]⟩

def PNG : Dependency :=
  ⟨"libpng", "PNG", "https://github.com/glennrp/libpng/archive/refs/tags/v1.6.29.tar.gz",
   ["include/png.h"]⟩

def GLM : Dependency :=
  ⟨"glm", "glm", "https://github.com/g-truc/glm/archive/refs/tags/0.9.9.8.zip",
   ["glm/glm.hpp"]⟩

/-- STB is pinned by commit SHA, which serves as its version string. -/
def STB : Dependency :=
  ⟨"stb", "stb", "5736b15f7ea0ffb08dd38af21067c314d6a3aae9",
   ["include/stb_image.h"]⟩

def TINYGLTF : Dependency :=
  ⟨"tinygltf", "TinyGLTF", "https://github.com/syoyo/tinygltf/archive/refs/tags/v2.5.0.zip",
   ["include/tiny_gltf.h"]⟩

def TINYOBJLOADER : Dependency :=
  ⟨"tinyobjloader", "tinyobjloader",
   "https://github.com/tinyobjloader/tinyobjloader/archive/refs/tags/v2.0-rc1.zip",
   ["include/tiny_obj_loader.h"]⟩

def OPENEXR (linux : Bool) : Dependency :=
  ⟨"OpenEXR", "OpenEXR",
   if linux then "https://github.com/AcademySoftwareFoundation/openexr/archive/refs/tags/v2.4.3.zip"
   else "https://github.com/AcademySoftwareFoundation/openexr/archive/refs/tags/v2.5.2.zip",
   ["include/OpenEXR/ImfVersion.h"]⟩

/-- `OPENIMAGEIO` in the source; named after its `OIIO_*` constants here. -/
def OIIO : Dependency :=
  ⟨"OpenImageIO", "OpenImageIO", "https://github.com/OpenImageIO/oiio/archive/refs/tags/v2.4.5.0.zip",
   ["include/OpenImageIO/oiioversion.h"]⟩

def OPENSUBDIV : Dependency :=
  ⟨"OpenSubdiv", "OpenSubdiv",
   "https://github.com/PixarAnimationStudios/OpenSubdiv/archive/v3_4_4.zip",
   ["include/opensubdiv/version.h"]⟩

def MATERIALX : Dependency :=
  ⟨"MaterialX", "MaterialX", "https://github.com/materialx/MaterialX/archive/v1.38.5.zip",
   ["include/MaterialXCore/Library.h"]⟩

def USD : Dependency :=
  ⟨"USD", "pxr", "https://github.com/autodesk-forks/USD/archive/refs/tags/v22.08-Aurora-v22.11.zip",
   ["include/pxr/pxr.h"]⟩

def SLANG (linux : Bool) : Dependency :=
  ⟨"Slang", "Slang",
   if linux then "https://github.com/shader-slang/slang/releases/download/v0.24.35/slang-0.24.35-linux-x86_64.zip"
   else "https://github.com/shader-slang/slang/releases/download/v0.24.35/slang-0.24.35-win64.zip",
   ["slang.h"]⟩

def GLEW : Dependency :=
  ⟨"glew", "GLEW", "https://github.com/nigels-com/glew/releases/download/glew-2.2.0/glew-2.2.0-win32.zip",
   ["include/GL/glew.h"]⟩

def GLFW : Dependency :=
  ⟨"GLFW", "glfw3", "https://github.com/glfw/glfw/archive/refs/tags/3.3.8.zip",
   ["include/GLFW/glfw3.h"]⟩

def CXXOPTS : Dependency :=
  ⟨"cxxopts", "cxxopts", "https://github.com/jarro2783/cxxopts/archive/refs/tags/v3.0.0.zip",
   ["include/cxxopts.hpp"]⟩

def GTEST : Dependency :=
  ⟨"gtest", "GTest", "https://github.com/google/googletest/archive/refs/tags/release-1.12.1.zip",
   ["include/gtest/gtest.h"]⟩

/-- The `requiredDependencies` literal of installExternals.py, in
declaration order (NRD and NRI are commented out in the source). -/
def requiredDependenciesFull (linux : Bool) : List Dependency :=
  [ZLIB, JPEG, TIFF, PNG, GLM, STB, TINYGLTF, TINYOBJLOADER, BOOST linux,
   TBB linux, OPENEXR linux, OIIO, MATERIALX, OPENSUBDIV, USD, SLANG linux,
   GLEW, GLFW, CXXOPTS, GTEST]

/-- Python `list.remove(x)`: drop the first occurrence of `x` (every
element of the Linux exclude list does occur in the required list, so the
`ValueError` branch of the real `list.remove` is unreachable here). -/
def pyRemove (l : List Dependency) (x : Dependency) : List Dependency :=
  match l with
  | [] => []
  | y :: rest => if y = x then rest else y :: pyRemove rest x

/-- The `excludes` list removed from `requiredDependencies` on Linux; a
fixed constant, not configurable by any flag. -/
def linuxExcludes : List Dependency :=
  [ZLIB, JPEG, TIFF, PNG, GLM, GLEW, GLFW, GTEST]

/-- The required-dependency list handed to the install loop: on Linux the
excludes are removed one by one (`requiredDependencies.remove(lib)`);
the computation takes no command-line flags at all. -/
def requiredDependencies (linux : Bool) : List Dependency :=
  if linux then
    linuxExcludes.foldl pyRemove (requiredDependenciesFull linux)
  else requiredDependenciesFull linux

/-- C5: on a simulated Linux run, the required-dependency list passed to
the install loop equals the full declared list minus exactly
zlib, libjpeg, libtiff, libpng, glm, glew, GLFW and gtest, in the original
declaration order; the computation reads no command-line flags, so the
result is flag-independent. -/
theorem c5_linux_exclusions :
    requiredDependencies true =
        (requiredDependenciesFull true).filter
          (fun d => !linuxExcludes.contains d) ∧
      requiredDependencies true =
        [STB, TINYGLTF, TINYOBJLOADER, BOOST true, TBB true, OPENEXR true,
         OIIO, MATERIALX, OPENSUBDIV, USD, SLANG true, CXXOPTS] := by
  constructor <;> rfl

/-! ### C6: the version-stamp rewrite after a successful install -/

/-- `UpdateVersion(context, packageName, versionString)` from the source:
returns the resulting file system together with the list of file writes
performed.  The source returns early when `CheckVersion` already passes,
so no write happens in that case. -/
def UpdateVersion (ctx : InstallContext) (fs : FileSys)
    (packageName versionString : String) : FileSys × List (String × String) :=
  if CheckVersion ctx fs packageName versionString then (fs, [])
  else
    let full := scriptVersion ++ ":" ++ versionString
    (setFile fs (stampPath ctx packageName) full, [(stampPath ctx packageName, full)])

/-- Counterexample to C6: when the existing stamp content already equals
`<scriptVersion>:<versionString>` (as under a forced rebuild of an
up-to-date dependency), `UpdateVersion` performs no file write at all —
the write is not unconditional. -/
theorem c6_counterexample :
    (CheckVersion ⟨"/ext", true, [], false, true, false⟩
        (fun q => if q = "/ext/ZLIB.version.txt" then some "00001:u" else none)
        "ZLIB" "u" = true) ∧
    (UpdateVersion ⟨"/ext", true, [], false, true, false⟩
        (fun q => if q = "/ext/ZLIB.version.txt" then some "00001:u" else none)
        "ZLIB" "u").2 = [] := by
  constructor <;> rfl

/-- C6 amended: after a successful install, `UpdateVersion` rewrites the
stamp file only when its current content does not already equal
`<scriptVersion>:<versionString>`; when it already matches, the write is
skipped and the file system is left untouched.  In either case the stamp
content afterwards equals `<scriptVersion>:<versionString>`. -/
theorem c6_stamp_update (ctx : InstallContext) (fs : FileSys)
    (packageName versionString : String) :
    ((UpdateVersion ctx fs packageName versionString).1 (stampPath ctx packageName)
        = some (scriptVersion ++ ":" ++ versionString)) ∧
      ((UpdateVersion ctx fs packageName versionString).2 = [] ↔
        CheckVersion ctx fs packageName versionString = true) ∧
      (CheckVersion ctx fs packageName versionString = true →
        (UpdateVersion ctx fs packageName versionString).1 = fs) := by
  unfold UpdateVersion
  by_cases h : CheckVersion ctx fs packageName versionString = true
  · rw [if_pos h]
    refine ⟨?_, by simp [h], fun _ => rfl⟩
    unfold CheckVersion at h
    rcases heq : fs (stampPath ctx packageName) with _ | txt
    · rw [heq] at h; exact absurd h (by simp)
    · rw [heq] at h
      simp only [decide_eq_true_eq] at h
      show fs (stampPath ctx packageName) = some (scriptVersion ++ ":" ++ versionString)
      rw [heq, h]
  · rw [if_neg h]
    refine ⟨?_, by simp [h], fun hc => absurd hc h⟩
    simp [setFile]

/-- Witness for C6 amended: a stale stamp is rewritten to the new full
version string. -/
theorem c6_stamp_update_witness :
    (UpdateVersion ⟨"/ext", false, [], false, true, false⟩
        (fun q => if q = "/ext/ZLIB.version.txt" then some "00000:old" else none)
        "ZLIB" "u").1 "/ext/ZLIB.version.txt" = some "00001:u" :=
  (c6_stamp_update ⟨"/ext", false, [], false, true, false⟩
    (fun q => if q = "/ext/ZLIB.version.txt" then some "00000:old" else none)
    "ZLIB" "u").1

/-! ### C7: Boost failure cleanup (InstallBoost except-branch) -/

/-- `BuildConfigs(context)` from installExternalsFunctions.py: the
configuration names, in the order Debug, Release, RelWithDebInfo. -/
def BuildConfigs (ctx : InstallContext) : List String :=
  (if ctx.buildDebug then ["Debug"] else []) ++
    (if ctx.buildRelease then ["Release"] else []) ++
      (if ctx.buildRelWithDebInfo then ["RelWithDebInfo"] else [])

/-- The except-branch of `InstallBoost`: for every configured build config,
remove `os.path.join(context.externalsInstDir, config, BOOST_VERSION_FILE)`
if it is a file, then re-raise. -/
def installBoostFailureCleanup (linux : Bool) (ctx : InstallContext)
    (fs : FileSys) : FileSys :=
  (BuildConfigs ctx).foldl
    (fun fs config =>
      removeIfPresent fs
        (pathJoin (pathJoin ctx.externalsInstDir config) (boostVersionFile linux)))
    fs

/-- C7 (code bug): on Linux with the default Release-only configuration,
suppose Boost's own build installed its version header at the path that
`Dependency.Exists` probes, `<inst>/boost/include/boost/version.hpp`,
before the install failed.  The failure cleanup removes only
`<inst>/Release/include/boost/version.hpp` — a path keyed by the build
configuration, not by Boost's install folder — so after the cleanup the
existence probe still succeeds and the next run does NOT treat Boost as
missing, contradicting the claim and the code's own comment ("We make sure
to remove it ... to ensure that the build script detects boost as a
dependency to build the next time it's run"). -/
theorem c7_boost_cleanup_misses_probe :
    ((BOOST true).existsIn ⟨"/ext", false, [], false, true, false⟩
        (fun q => if q = "/ext/boost/include/boost/version.hpp"
                  then some "boost header" else none) = true) ∧
      ((BOOST true).existsIn ⟨"/ext", false, [], false, true, false⟩
        (installBoostFailureCleanup true ⟨"/ext", false, [], false, true, false⟩
          (fun q => if q = "/ext/boost/include/boost/version.hpp"
                    then some "boost header" else none)) = true) ∧
      (BuildConfigs ⟨"/ext", false, [], false, true, false⟩ = ["Release"]) ∧
      (installBoostFailureCleanup true ⟨"/ext", false, [], false, true, false⟩
          (fun q => if q = "/ext/boost/include/boost/version.hpp"
                    then some "boost header" else none)
        "/ext/boost/include/boost/version.hpp" = some "boost header") := by
  refine ⟨rfl, ?_, rfl, ?_⟩ <;> rfl

/-! ### C2: the download phase of `DownloadURL`
(installExternalsFunctions.py).

The network is modelled by a function from attempt index to outcome: each
call of `context.downloader(url, tmpFilename)` either produces the file
content (success) or an error message (the raised exception's text). -/

/-- `url.split("/")[-1]`: the final path segment of the URL. -/
def lastSegment (url : String) : String := (url.splitOn "/").getLastD ""

/-- The `for i in range(maxRetries): ... else: raise` loop: try attempts
`i, i+1, ...` while fuel lasts, remembering the last error; return the
first successful content, or the last error when the fuel (5 attempts in
the source) is exhausted. -/
def retryLoop (att : Nat → Except String String) :
    Nat → Nat → Option String → Except (Option String) String
  | 0, _, last => Except.error last
  | fuel + 1, i, _ =>
    match att i with
    | Except.ok c => Except.ok c
    | Except.error e => retryLoop att fuel (i + 1) (some e)

/-- `str(lastError)`; the loop always runs at least once, so the `none`
case is unreachable in the source. -/
def strOfOpt : Option String → String
  | none => "None"
  | some e => e

/-- Result of the download phase: the error message of the raised
`RuntimeError` (if any) and the resulting file system. -/
structure DLResult where
  err : Option String
  fs : FileSys

/-- The fresh-download path of `DownloadURL`: run up to 5 attempts writing
to `<filename>.tmp`; on success rename the temp file onto `filename`; on
exhaustion raise with the last underlying error's text. -/
def downloadFresh (url : String) (att : Nat → Except String String)
    (fs : FileSys) : DLResult :=
  match retryLoop att 5 0 none with
  | Except.ok c =>
      ⟨none, shutilMove (setFile fs (lastSegment url ++ ".tmp") c)
        (lastSegment url ++ ".tmp") (lastSegment url)⟩
  | Except.error last =>
      ⟨some ("Failed to download " ++ url ++ ": " ++ strOfOpt last), fs⟩

/-- The file-download phase of `DownloadURL(url, context, force)`: if
forcing, remove any existing file of the target name; reuse an existing
file without downloading; otherwise remove any stale `.tmp` sibling and
download fresh. -/
def DownloadURLFile (url : String) (att : Nat → Except String String)
    (force : Bool) (fs : FileSys) : DLResult :=
  let fs1 := if force then removeIfPresent fs (lastSegment url) else fs
  if (fs1 (lastSegment url)).isSome then ⟨none, fs1⟩
  else downloadFresh url att (removeIfPresent fs1 (lastSegment url ++ ".tmp"))

lemma append_ne_self_of_ne_empty (s t : String) (ht : t.length ≠ 0) : s ++ t ≠ s := by
  intro h
  have hlen : (s ++ t).length = s.length := by rw [h]
  rw [String.length_append] at hlen
  omega

lemma retryLoop_succ (att : Nat → Except String String) (f i : Nat)
    (last : Option String) :
    retryLoop att (f + 1) i last
      = match att i with
        | Except.ok c => Except.ok c
        | Except.error e => retryLoop att f (i + 1) (some e) := rfl

lemma retryLoop_congr (att att2 : Nat → Except String String) :
    ∀ (fuel i : Nat) (last : Option String),
      (∀ j, i ≤ j → j < i + fuel → att2 j = att j) →
      retryLoop att2 fuel i last = retryLoop att fuel i last := by
  intro fuel
  induction fuel with
  | zero => intro i last _; rfl
  | succ f ih =>
    intro i last hagree
    unfold retryLoop
    rw [hagree i (Nat.le_refl i) (by omega)]
    cases att i with
    | ok c => rfl
    | error e => exact ih (i + 1) (some e) (fun j hj hj2 => hagree j (by omega) (by omega))

lemma retryLoop_ok (att : Nat → Except String String) :
    ∀ (fuel i : Nat) (last : Option String) (k : Nat) (c : String),
      i ≤ k → k < i + fuel → att k = Except.ok c →
      (∀ j, i ≤ j → j < k → ∃ e, att j = Except.error e) →
      retryLoop att fuel i last = Except.ok c := by
  intro fuel
  induction fuel with
  | zero => intro i last k c h1 h2; omega
  | succ f ih =>
    intro i last k c h1 h2 hk hpre
    unfold retryLoop
    rcases Nat.eq_or_lt_of_le h1 with rfl | hlt
    · rw [hk]
    · rcases hpre i (Nat.le_refl i) hlt with ⟨e, he⟩
      rw [he]
      exact ih (i + 1) (some e) k c (by omega) (by omega) hk
        (fun j hj hj2 => hpre j (by omega) hj2)

lemma retryLoop_error (att : Nat → Except String String) (e : Nat → String) :
    ∀ (fuel i : Nat) (last : Option String),
      0 < fuel →
      (∀ j, i ≤ j → j < i + fuel → att j = Except.error (e j)) →
      retryLoop att fuel i last = Except.error (some (e (i + fuel - 1))) := by
  intro fuel
  induction fuel with
  | zero => intro i last h; omega
  | succ f ih =>
    intro i last _ hall
    have hstep : retryLoop att (f + 1) i last = retryLoop att f (i + 1) (some (e i)) := by
      rw [retryLoop_succ, hall i (Nat.le_refl i) (by omega)]
    rw [hstep]
    cases f with
    | zero =>
      show Except.error (some (e i)) = Except.error (some (e (i + 1 - 1)))
      have : i + 1 - 1 = i := by omega
      rw [this]
    | succ f' =>
      rw [ih (i + 1) (some (e i)) (by omega)
        (fun j hj hj2 => hall j (by omega) (by omega))]
      congr 3
      omega

/-- C2: for a URL whose target file does not already exist, the download
phase (a) is insensitive to any stale content at the `.tmp` sibling (it is
removed first) and reads at most the first 5 attempt outcomes; (b) if the
first success occurs within the 5 attempts, the temp file is renamed to
the final filename, which then holds the downloaded content with no `.tmp`
left behind; (c) if all 5 attempts fail, it raises an error whose text
contains the last underlying error's text, and no file is created under
the final name. -/
lemma downloadURLFile_fresh (url : String) (att : Nat → Except String String)
    (fs : FileSys) (hnone : fs (lastSegment url) = none) :
    DownloadURLFile url att false fs
      = downloadFresh url att (removeIfPresent fs (lastSegment url ++ ".tmp")) := by
  unfold DownloadURLFile
  simp only [Bool.false_eq_true, if_false]
  rw [hnone]
  rfl

/-- C2: for a URL whose target file does not already exist, the download
phase (a) is insensitive to any stale content at the `.tmp` sibling (it is
removed first) and reads at most the first 5 attempt outcomes; (b) if the
first success occurs within the 5 attempts, the temp file is renamed to
the final filename, which then holds the downloaded content with no `.tmp`
left behind; (c) if all 5 attempts fail, it raises an error whose text
contains the last underlying error's text, and no file is created under
the final name. -/
theorem c2_download_retry (url : String) (att : Nat → Except String String)
    (fs : FileSys) (hnone : fs (lastSegment url) = none) :
    ((∀ v, DownloadURLFile url att false (setFile fs (lastSegment url ++ ".tmp") v)
        = DownloadURLFile url att false fs) ∧
     (∀ att2, (∀ j, j < 5 → att2 j = att j) →
        DownloadURLFile url att2 false fs = DownloadURLFile url att false fs)) ∧
    (∀ k c, k < 5 → att k = Except.ok c →
      (∀ j, j < k → ∃ e, att j = Except.error e) →
      (DownloadURLFile url att false fs).err = none ∧
      (DownloadURLFile url att false fs).fs (lastSegment url) = some c ∧
      (DownloadURLFile url att false fs).fs (lastSegment url ++ ".tmp") = none) ∧
    (∀ e : Nat → String, (∀ j, j < 5 → att j = Except.error (e j)) →
      (DownloadURLFile url att false fs).err
          = some ("Failed to download " ++ url ++ ": " ++ e 4) ∧
      (DownloadURLFile url att false fs).fs (lastSegment url) = none) := by
  have htmpne : lastSegment url ++ ".tmp" ≠ lastSegment url :=
    append_ne_self_of_ne_empty _ _ (by decide)
  have hbase := downloadURLFile_fresh url att fs hnone
  refine ⟨⟨?_, ?_⟩, ?_, ?_⟩
  · -- stale .tmp content is irrelevant
    intro v
    have h1 : (setFile fs (lastSegment url ++ ".tmp") v) (lastSegment url) = none := by
      unfold setFile
      rw [if_neg (fun h => htmpne h.symm), hnone]
    rw [downloadURLFile_fresh url att _ h1, hbase]
    have hfuns : removeIfPresent (setFile fs (lastSegment url ++ ".tmp") v)
        (lastSegment url ++ ".tmp") = removeIfPresent fs (lastSegment url ++ ".tmp") := by
      have hset : (setFile fs (lastSegment url ++ ".tmp") v) (lastSegment url ++ ".tmp")
          = some v := by
        unfold setFile
        rw [if_pos rfl]
      funext q
      unfold removeIfPresent
      rw [hset]
      simp only [Option.isSome_some, if_true]
      by_cases hp : (fs (lastSegment url ++ ".tmp")).isSome = true
      · rw [if_pos hp]
        unfold removeFile setFile
        by_cases hq : q = lastSegment url ++ ".tmp"
        · rw [if_pos hq, if_pos hq]
        · rw [if_neg hq, if_neg hq, if_neg hq]
      · rw [if_neg hp]
        unfold removeFile setFile
        by_cases hq : q = lastSegment url ++ ".tmp"
        · rw [if_pos hq, hq]
          exact (Option.not_isSome_iff_eq_none.mp hp).symm
        · rw [if_neg hq, if_neg hq]
    rw [hfuns]
  · -- only the first 5 attempt outcomes matter
    intro att2 hagree
    rw [downloadURLFile_fresh url att2 fs hnone, hbase]
    unfold downloadFresh
    rw [retryLoop_congr att att2 5 0 none (fun j hj hj2 => hagree j (by omega))]
  · -- success within 5 attempts
    intro k c hk5 hok hpre
    rw [hbase]
    unfold downloadFresh
    rw [retryLoop_ok att 5 0 none k c (Nat.zero_le k) (by omega) hok
      (fun j hj hj2 => hpre j hj2)]
    refine ⟨rfl, ?_, ?_⟩
    · show shutilMove _ _ _ (lastSegment url) = some c
      unfold shutilMove setFile
      simp
    · show shutilMove _ _ _ (lastSegment url ++ ".tmp") = none
      unfold shutilMove
      rw [if_neg htmpne, if_pos rfl]
  · -- all 5 attempts fail
    intro e hall
    rw [hbase]
    unfold downloadFresh
    rw [retryLoop_error att e 5 0 none (by omega) (fun j hj hj2 => hall j (by omega))]
    refine ⟨rfl, ?_⟩
    show removeIfPresent fs (lastSegment url ++ ".tmp") (lastSegment url) = none
    unfold removeIfPresent removeFile
    by_cases h : (fs (lastSegment url ++ ".tmp")).isSome = true
    · rw [if_pos h, if_neg (fun hx => htmpne hx.symm)]
      exact hnone
    · rw [if_neg h]
      exact hnone

/-- Witness for C2: five failing attempts raise with the final error's
text and leave nothing at the target filename. -/
theorem c2_download_retry_witness :
    (DownloadURLFile "http://host/f.zip" (fun _ => Except.error "boom")
        false (fun _ => none)).err
      = some "Failed to download http://host/f.zip: boom" ∧
    (DownloadURLFile "http://host/f.zip" (fun _ => Except.error "boom")
        false (fun _ => none)).fs "f.zip" = none := by
  have h := c2_download_retry "http://host/f.zip" (fun _ => Except.error "boom")
    (fun _ => none) rfl
  have h3 := h.2.2 (fun _ => "boom") (fun j _ => rfl)
  exact ⟨h3.1, h3.2⟩

/-! ### C3: the archive inspection/extraction phase of `DownloadURL`

The state tracks plain files (the downloaded archive) and directory trees
(extraction results).  A directory tree is the list of (relative path,
content) pairs it holds; extraction is modelled abstractly: the archive
either is unrecognized, or yields a first entry name and an extraction
outcome — complete tree, or failure carrying the partial tree written
before the exception. -/

/-- File-and-directory state for the extraction phase. -/
structure XState where
  files : String → Option String
  dirs : String → Option (List (String × String))

def XState.setDir (st : XState) (p : String)
    (t : List (String × String)) : XState :=
  ⟨st.files, fun q => if q = p then some t else st.dirs q⟩

def XState.removeDir (st : XState) (p : String) : XState :=
  ⟨st.files, fun q => if q = p then none else st.dirs q⟩

def XState.removeDirIfPresent (st : XState) (p : String) : XState :=
  if (st.dirs p).isSome then st.removeDir p else st

/-- `shutil.move(filename, filename + ".bad")` on the archive file. -/
def XState.quarantine (st : XState) (filename : String) : XState :=
  ⟨fun q => if q = filename ++ ".bad" then st.files filename
            else if q = filename then none else st.files q,
   st.dirs⟩

/-- What opening the archive yields: either an unrecognized file type
(raising inside the `try`), or the name of the first archive entry plus
the outcome of `extractall` (the complete tree, or an error message with
the partial tree written before the failure). -/
inductive ArchiveEval where
  | notArchive : ArchiveEval
  | opened (firstEntry : String)
      (extract : Except (String × List (String × String)) (List (String × String))) :
      ArchiveEval

/-- `rootDir`/`extractedPath` selection: an explicit `extractDir` wins,
else the first path component of the archive's first entry; `destDir`
overrides the final location. -/
def extractTarget (firstEntry : String) (extractDir destDir : Option String) : String :=
  match destDir with
  | some d => d
  | none =>
    match extractDir with
    | some d => d
    | none => ((firstEntry.splitOn "/").headD "")

/-- Result of the extraction phase: error message of the re-raised
`RuntimeError` (if any), resulting state, and the returned path. -/
structure XResult where
  err : Option String
  st : XState
  returnedPath : Option String

/-- The archive inspection/extraction phase of `DownloadURL`
(installExternalsFunctions.py): determine the target directory, honor
`force`, skip when already extracted, otherwise extract into the scratch
`extract_dir` and move it into place; on any exception rename the archive
to `<filename>.bad` and re-raise. -/
def extractArchive (filename : String) (arch : ArchiveEval) (force : Bool)
    (extractDir destDir : Option String) (st : XState) : XResult :=
  match arch with
  | ArchiveEval.notArchive =>
      ⟨some ("Failed to extract archive " ++ filename ++ ": unrecognized archive file type"),
       st.quarantine filename, none⟩
  | ArchiveEval.opened firstEntry extract =>
      let extractedPath := extractTarget firstEntry extractDir destDir
      let st1 := if force && (st.dirs extractedPath).isSome
                 then st.removeDir extractedPath else st
      if (st1.dirs extractedPath).isSome then ⟨none, st1, some extractedPath⟩
      else
        let st2 := st1.removeDirIfPresent "extract_dir"
        match extract with
        | Except.error (e, part) =>
            ⟨some ("Failed to extract archive " ++ filename ++ ": " ++ e),
             (st2.setDir "extract_dir" part).quarantine filename, none⟩
        | Except.ok tree =>
            ⟨none,
             ((st2.setDir "extract_dir" tree).setDir extractedPath
                 tree).removeDir "extract_dir",
             some extractedPath⟩

/-- C3: if the archive is unrecognized, or `extractall` raises, the
archive file is renamed with a `.bad` suffix (its content moves to
`<filename>.bad`, nothing remains under `filename`) and the error is
re-raised; and — provided the final destination was not already present
and is distinct from the scratch `extract_dir` — the destination directory
still does not exist afterwards, so no partially-extracted destination is
ever exposed. -/
theorem c3_archive_quarantine (filename : String) (force : Bool)
    (extractDir destDir : Option String) (st : XState) (c : String)
    (hfile : st.files filename = some c) :
    ((extractArchive filename ArchiveEval.notArchive force extractDir destDir st).err
        = some ("Failed to extract archive " ++ filename
            ++ ": unrecognized archive file type") ∧
      (extractArchive filename ArchiveEval.notArchive force extractDir destDir
          st).st.files (filename ++ ".bad") = some c ∧
      (extractArchive filename ArchiveEval.notArchive force extractDir destDir
          st).st.files filename = none ∧
      (extractArchive filename ArchiveEval.notArchive force extractDir destDir
          st).st.dirs = st.dirs) ∧
    (∀ firstEntry e part,
      st.dirs (extractTarget firstEntry extractDir destDir) = none →
      extractTarget firstEntry extractDir destDir ≠ "extract_dir" →
      (extractArchive filename
          (ArchiveEval.opened firstEntry (Except.error (e, part))) force
          extractDir destDir st).err
        = some ("Failed to extract archive " ++ filename ++ ": " ++ e) ∧
      (extractArchive filename
          (ArchiveEval.opened firstEntry (Except.error (e, part))) force
          extractDir destDir st).st.files (filename ++ ".bad") = some c ∧
      (extractArchive filename
          (ArchiveEval.opened firstEntry (Except.error (e, part))) force
          extractDir destDir st).st.files filename = none ∧
      (extractArchive filename
          (ArchiveEval.opened firstEntry (Except.error (e, part))) force
          extractDir destDir st).st.dirs
          (extractTarget firstEntry extractDir destDir) = none) := by
  have hbadne : filename ++ ".bad" ≠ filename :=
    append_ne_self_of_ne_empty _ _ (by decide)
  have hbadne2 : filename ≠ filename ++ ".bad" := Ne.symm hbadne
  constructor
  · refine ⟨rfl, ?_, ?_, rfl⟩
    · show (st.quarantine filename).files (filename ++ ".bad") = some c
      simp [XState.quarantine, hfile]
    · show (st.quarantine filename).files filename = none
      simp [XState.quarantine, hbadne2]
  · intro firstEntry e part hdst htgt
    simp only [extractArchive, hdst, Option.isSome_none, Bool.and_false,
      Bool.false_eq_true, if_false]
    refine ⟨?_, ?_, ?_, ?_⟩
    · trivial
    · show (XState.quarantine _ filename).files (filename ++ ".bad") = some c
      simp only [XState.quarantine, XState.setDir, XState.removeDirIfPresent,
        XState.removeDir]
      by_cases h : (st.dirs "extract_dir").isSome = true <;> simp [h, hfile]
    · show (XState.quarantine _ filename).files filename = none
      simp only [XState.quarantine, XState.setDir, XState.removeDirIfPresent,
        XState.removeDir]
      by_cases h : (st.dirs "extract_dir").isSome = true <;> simp [h, hbadne2]
    · show (XState.quarantine _ filename).dirs _ = none
      simp only [XState.quarantine, XState.setDir, XState.removeDirIfPresent,
        XState.removeDir]
      by_cases h : (st.dirs "extract_dir").isSome = true <;>
        simp [h, htgt, hdst]

/-- Witness for C3: a corrupt (unrecognized) archive is quarantined as
`archive.zip.bad` and the error is surfaced. -/
theorem c3_archive_quarantine_witness :
    (extractArchive "archive.zip" ArchiveEval.notArchive false none none
        ⟨fun q => if q = "archive.zip" then some "junk" else none,
         fun _ => none⟩).err
      = some "Failed to extract archive archive.zip: unrecognized archive file type" ∧
    (extractArchive "archive.zip" ArchiveEval.notArchive false none none
        ⟨fun q => if q = "archive.zip" then some "junk" else none,
         fun _ => none⟩).st.files "archive.zip.bad" = some "junk" := by
  have h := c3_archive_quarantine "archive.zip" false none none
    ⟨fun q => if q = "archive.zip" then some "junk" else none, fun _ => none⟩
    "junk" rfl
  exact ⟨h.1.1, h.1.2.1⟩

/-! ### C4: `GitClone` foreign-directory protection -/

/-- The observable state of the clone target directory. -/
inductive DirState where
  | missing : DirState
  | gitDir (tree : List String) : DirState
  | nonGitDir (tree : List String) : DirState
deriving DecidableEq, Repr

/-- `IsGitFolder(path)`: `git -C path status` succeeds exactly on a git
working copy. -/
def IsGitFolder : DirState → Bool
  | DirState.gitDir _ => true
  | _ => false

/-- Result of `GitClone`: error message of the raised `RuntimeError`
(if any), resulting directory state, and the external commands run. -/
structure GitCloneResult where
  err : Option String
  dir : DirState
  cmds : List String
deriving DecidableEq, Repr

/-- The inner `RuntimeError` message raised on a non-git folder. -/
def gitCloneInnerMsg (url tag cloneDir : String) : String :=
  "Failed to clone repo " ++ url ++ " (" ++ tag ++ "): non-git folder "
    ++ cloneDir ++ " exists"

/-- `GitClone(url, tag, cloneDir, context)`: clone (with submodules, at the
tag) when the target is missing; raise on an existing non-git directory
(the inner error is caught by the outer `except` and re-wrapped); reuse an
existing git directory as-is, running no command.  The outcome of an
actual clone command is external and passed in as `cloneResult`. -/
def GitClone (url tag cloneDir : String)
    (cloneResult : Except String (List String)) (d : DirState) : GitCloneResult :=
  match d with
  | DirState.missing =>
      let cmd := "git clone --recurse-submodules -b " ++ tag ++ " " ++ url
        ++ " " ++ cloneDir
      match cloneResult with
      | Except.ok tree => ⟨none, DirState.gitDir tree, [cmd]⟩
      | Except.error e =>
          ⟨some ("Failed to clone repo " ++ url ++ " (" ++ tag ++ "): " ++ e),
           DirState.missing, [cmd]⟩
  | d =>
      if IsGitFolder d then ⟨none, d, []⟩
      else
        ⟨some ("Failed to clone repo " ++ url ++ " (" ++ tag ++ "): "
            ++ gitCloneInnerMsg url tag cloneDir), d, []⟩

/-- C4: when the clone target exists and is not a version-control working
copy, `GitClone` raises (with the non-git-folder message) and leaves the
directory's contents unchanged, running no command; when it exists and is
a working copy, it is reused as-is with no fetch, pull or clone command
executed and no error. -/
theorem c4_git_clone_protection (url tag cloneDir : String)
    (cloneResult : Except String (List String)) :
    (∀ t, GitClone url tag cloneDir cloneResult (DirState.nonGitDir t)
        = ⟨some ("Failed to clone repo " ++ url ++ " (" ++ tag ++ "): "
            ++ gitCloneInnerMsg url tag cloneDir), DirState.nonGitDir t, []⟩) ∧
    (∀ t, GitClone url tag cloneDir cloneResult (DirState.gitDir t)
        = ⟨none, DirState.gitDir t, []⟩) :=
  ⟨fun _ => rfl, fun _ => rfl⟩

/-! ### C8 / C10: `copy_if_changed` in deployHdAurora.py

Files carry content and a modification time; `shutil.copy2` copies both
(content and metadata, including the modification time). -/

/-- A file as the deployment script observes it: content plus
modification time (the metadata `shutil.copy2` preserves). -/
structure DFile where
  content : String
  mtime : Nat
deriving DecidableEq, Repr

/-- File system for the deployment script. -/
def DeployFS : Type := String → Option DFile

/-- `shutil.copy2(src, dst)` writing file `f` at `dst`: content and
modification time both come from the source file. -/
def dsetFile (fs : DeployFS) (p : String) (f : DFile) : DeployFS :=
  fun q => if q = p then some f else fs q

/-- Result of `copy_if_changed`: the resulting tree, whether a copy was
performed, and whether the file-not-found notice was printed. -/
structure CopyResult where
  fs : DeployFS
  copied : Bool
  notice : Bool

/-- `copy_if_changed(src, dst)` from deployHdAurora.py: missing source
prints a notice and returns; otherwise copy exactly when the destination
is missing or its modification time differs from the source's. -/
def copy_if_changed (fs : DeployFS) (src dst : String) : CopyResult :=
  match fs src with
  | none => ⟨fs, false, true⟩
  | some f =>
    match fs dst with
    | none => ⟨dsetFile fs dst f, true, false⟩
    | some g =>
      if f.mtime ≠ g.mtime then ⟨dsetFile fs dst f, true, false⟩
      else ⟨fs, false, false⟩

/-- C8: when the source exists, the file is copied iff the destination is
missing or its modification time differs from the source's; a performed
copy installs the source file (content and modification time) at the
destination, and a skipped copy leaves the tree untouched; when the
source is missing, a console notice is printed and the tree — in
particular the destination — is unchanged, with no error raised. -/
theorem c8_deploy_change_detection (fs : DeployFS) (src dst : String) :
    (fs src = none →
      copy_if_changed fs src dst = ⟨fs, false, true⟩) ∧
    (∀ f, fs src = some f →
      (((copy_if_changed fs src dst).copied = true) ↔
        (fs dst = none ∨ ∃ g, fs dst = some g ∧ g.mtime ≠ f.mtime)) ∧
      ((copy_if_changed fs src dst).copied = true →
        (copy_if_changed fs src dst).fs dst = some f) ∧
      ((copy_if_changed fs src dst).copied = false →
        (copy_if_changed fs src dst).fs = fs) ∧
      (copy_if_changed fs src dst).notice = false) := by
  constructor
  · intro h
    unfold copy_if_changed
    rw [h]
  · intro f hf
    unfold copy_if_changed
    rw [hf]
    rcases hd : fs dst with _ | g
    · dsimp only
      refine ⟨?_, ?_, ?_, rfl⟩
      · simp
      · intro _
        show dsetFile fs dst f dst = some f
        unfold dsetFile
        rw [if_pos rfl]
      · intro h
        exact absurd h (by simp)
    · dsimp only
      by_cases hm : f.mtime ≠ g.mtime
      · rw [if_pos hm]
        refine ⟨?_, ?_, ?_, rfl⟩
        · simp only [true_iff]
          exact Or.inr ⟨g, rfl, fun h => hm h.symm⟩
        · intro _
          show dsetFile fs dst f dst = some f
          unfold dsetFile
          rw [if_pos rfl]
        · intro h
          exact absurd h (by simp)
      · rw [if_neg hm]
        push_neg at hm
        refine ⟨?_, ?_, ?_, rfl⟩
        · simp only [Bool.false_eq_true, false_iff]
          rintro (h | ⟨g', hg', hne⟩)
          · exact Option.noConfusion h
          · have hgg : g = g' := Option.some_inj.mp hg'
            subst hgg
            exact hne hm.symm
        · intro h
          exact absurd h (by simp)
        · intro _
          rfl

/-- Witness for C8: an absent destination is copied, receiving the
source's modification time. -/
theorem c8_deploy_change_detection_witness :
    (copy_if_changed
        (fun q => if q = "bin/Aurora.dll" then some ⟨"lib", 7⟩ else none)
        "bin/Aurora.dll" "usd/lib/Aurora.dll").fs "usd/lib/Aurora.dll"
      = some ⟨"lib", 7⟩ := by
  have h := (c8_deploy_change_detection
    (fun q => if q = "bin/Aurora.dll" then some ⟨"lib", 7⟩ else none)
    "bin/Aurora.dll" "usd/lib/Aurora.dll").2 ⟨"lib", 7⟩ rfl
  exact h.2.1 (by rfl)

/-- C10: deployment staging is idempotent: when the source exists, an
immediately repeated `copy_if_changed` performs no copy and leaves the
tree of the first call unchanged, because `shutil.copy2` preserved the
source's modification time and the change test compares modification
times for inequality. -/
theorem c10_deploy_idempotent (fs : DeployFS) (src dst : String) (f : DFile)
    (hsrc : fs src = some f) :
    copy_if_changed (copy_if_changed fs src dst).fs src dst
      = ⟨(copy_if_changed fs src dst).fs, false, false⟩ := by
  unfold copy_if_changed
  rw [hsrc]
  rcases hd : fs dst with _ | g
  · -- first call copies; src ≠ dst since fs src is some and fs dst is none
    have hne : src ≠ dst := fun h => by rw [h, hd] at hsrc; exact Option.noConfusion hsrc
    have h1 : dsetFile fs dst f src = some f := by
      unfold dsetFile
      rw [if_neg hne, hsrc]
    have h2 : dsetFile fs dst f dst = some f := by
      unfold dsetFile
      rw [if_pos rfl]
    show copy_if_changed (dsetFile fs dst f) src dst = _
    unfold copy_if_changed
    rw [h1, h2]
    dsimp only
    rw [if_neg (by simp)]
  · dsimp only
    by_cases hm : f.mtime ≠ g.mtime
    · rw [if_pos hm]
      have hne : src ≠ dst := fun h => by
        rw [h, hd] at hsrc
        exact hm (Option.some_injective _ hsrc ▸ rfl)
      have h1 : dsetFile fs dst f src = some f := by
        unfold dsetFile
        rw [if_neg hne, hsrc]
      have h2 : dsetFile fs dst f dst = some f := by
        unfold dsetFile
        rw [if_pos rfl]
      show copy_if_changed (dsetFile fs dst f) src dst = _
      unfold copy_if_changed
      rw [h1, h2]
      dsimp only
      rw [if_neg (by simp)]
    · rw [if_neg hm]
      show copy_if_changed fs src dst = _
      unfold copy_if_changed
      rw [hsrc, hd]
      dsimp only
      rw [if_neg hm]

/-- Witness for C10: repeating a fresh copy performs nothing the second
time. -/
theorem c10_deploy_idempotent_witness :
    copy_if_changed
        (copy_if_changed
          (fun q => if q = "src.dll" then some ⟨"bits", 3⟩ else none)
          "src.dll" "dst.dll").fs "src.dll" "dst.dll"
      = ⟨(copy_if_changed
          (fun q => if q = "src.dll" then some ⟨"bits", 3⟩ else none)
          "src.dll" "dst.dll").fs, false, false⟩ :=
  c10_deploy_idempotent
    (fun q => if q = "src.dll" then some ⟨"bits", 3⟩ else none)
    "src.dll" "dst.dll" ⟨"bits", 3⟩ rfl

/-! ### C9: the shader minifier's per-line escaping and segmenting loop
(minifyShaders.py)

Lines are modelled as lists of characters, as produced by `readlines()`
on the preprocessed file: each line carries its trailing newline.  The
five `re.sub` passes are embedded for such single-line inputs. -/

/-- The character class `[^\S\r\n]`: whitespace other than carriage
return and newline. -/
def isSpaceNotNewline (c : Char) : Bool :=
  c.isWhitespace && !(c = '\r') && !(c = '\n')

/-- `re.sub(r"//.*\n", "\n", ln)` on a `readlines` line: from the first
`//` that is followed (eventually) by a newline, everything up to and
including that newline is replaced by a single newline. -/
def stripComment : List Char → List Char
  | [] => []
  | c :: rest =>
    if c = '/' && (rest.headD ' ') = '/' then
      (if rest.contains '\n' then ['\n'] else c :: rest)
    else c :: stripComment rest

/-- `re.sub(r"\\", "\\\\\\\\", ln)`: each single backslash becomes two
(the replacement template collapses to two literal backslashes). -/
def escBackslashes : List Char → List Char
  | [] => []
  | c :: rest => (if c = '\\' then ['\\', '\\'] else [c]) ++ escBackslashes rest

/-- `re.sub(r"\n", "\\\\n", ln)`: the newline becomes the two-character
sequence backslash-`n`. -/
def escNewlines : List Char → List Char
  | [] => []
  | c :: rest => (if c = '\n' then ['\\', 'n'] else [c]) ++ escNewlines rest

/-- `re.sub(r"[^\S\r\n]+", " ", ln)`: collapse each run of
non-newline whitespace into a single space (the boolean tracks whether
the previous character was part of such a run). -/
def collapseWhitespace : Bool → List Char → List Char
  | _, [] => []
  | prev, c :: rest =>
    if isSpaceNotNewline c then
      (if prev then [] else [' ']) ++ collapseWhitespace true rest
    else c :: collapseWhitespace false rest

/-- `re.sub(r"\"", "\\\"", ln)`: each double quote gains a backslash. -/
def escQuotes : List Char → List Char
  | [] => []
  | c :: rest => (if c = '"' then ['\\', '"'] else [c]) ++ escQuotes rest

/-- The whole per-line transformation, in the order of the source. -/
def transformLine (l : List Char) : List Char :=
  escQuotes (collapseWhitespace false (escNewlines (escBackslashes (stripComment l))))

/-- The accumulation loop of minifyShaders.py: append each transformed
line to the buffer and flush the buffer as one quoted segment whenever
its length exceeds 100; after all lines, the remaining buffer is the
final segment.  The result is the list of quoted segments' contents, in
order. -/
def minifyGo : List (List Char) → List Char → List (List Char)
  | [], buf => [buf]
  | l :: ls, buf =>
    if (buf ++ transformLine l).length > 100 then
      (buf ++ transformLine l) :: minifyGo ls []
    else minifyGo ls (buf ++ transformLine l)

/-- The quoted string segments the minifier emits for the given
preprocessed lines. -/
def minifySegments (lines : List (List Char)) : List (List Char) :=
  minifyGo lines []

/-- The character class of the claim: non-whitespace, non-quote,
non-backslash. -/
def benignChar (c : Char) : Bool :=
  !c.isWhitespace && !(c = '"') && !(c = '\\')

/-- Whether two consecutive slashes occur anywhere in the line (the
trigger of the single-line-comment stripping pass). -/
def hasDoubleSlash : List Char → Bool
  | [] => false
  | c :: rest => (c = '/' && (rest.headD ' ') = '/') || hasDoubleSlash rest

set_option maxRecDepth 40000

lemma stripComment_of_no_doubleSlash (l : List Char)
    (h : hasDoubleSlash l = false) : stripComment l = l := by
  induction l with
  | nil => rfl
  | cons c rest ih =>
    unfold hasDoubleSlash at h
    rcases Bool.or_eq_false_iff.mp h with ⟨h1, h2⟩
    unfold stripComment
    rw [if_neg (by rw [h1]; exact Bool.false_ne_true), ih h2]

lemma hasDoubleSlash_append_single (c : Char) (hc : c ≠ '/') :
    ∀ l : List Char, hasDoubleSlash l = false →
      hasDoubleSlash (l ++ [c]) = false := by
  intro l
  induction l with
  | nil =>
    intro _
    simp [hasDoubleSlash, hc]
  | cons d rest ih =>
    intro h
    unfold hasDoubleSlash at h
    rcases Bool.or_eq_false_iff.mp h with ⟨h1, h2⟩
    rw [List.cons_append]
    unfold hasDoubleSlash
    refine Bool.or_eq_false_iff.mpr ⟨?_, ih h2⟩
    cases rest with
    | nil => simp [hc]
    | cons e rest2 =>
      rw [List.cons_append, List.headD_cons]
      rw [List.headD_cons] at h1
      exact h1

lemma escBackslashes_id (l : List Char) (h : ∀ c ∈ l, c ≠ '\\') :
    escBackslashes l = l := by
  induction l with
  | nil => rfl
  | cons c rest ih =>
    unfold escBackslashes
    rw [if_neg (h c (List.mem_cons_self _ _)),
      ih (fun d hd => h d (List.mem_cons_of_mem _ hd))]
    rfl

lemma escNewlines_benign_line (l : List Char) (h : ∀ c ∈ l, c ≠ '\n') :
    escNewlines (l ++ ['\n']) = l ++ ['\\', 'n'] := by
  induction l with
  | nil => rfl
  | cons c rest ih =>
    rw [List.cons_append]
    unfold escNewlines
    rw [if_neg (h c (List.mem_cons_self _ _)),
      ih (fun d hd => h d (List.mem_cons_of_mem _ hd))]
    rfl

lemma collapseWhitespace_id (l : List Char)
    (h : ∀ c ∈ l, isSpaceNotNewline c = false) :
    ∀ b, collapseWhitespace b l = l := by
  induction l with
  | nil => intro b; rfl
  | cons c rest ih =>
    intro b
    unfold collapseWhitespace
    rw [if_neg (by rw [h c (List.mem_cons_self _ _)]; exact Bool.false_ne_true),
      ih (fun d hd => h d (List.mem_cons_of_mem _ hd)) false]

lemma escQuotes_id (l : List Char) (h : ∀ c ∈ l, c ≠ '"') :
    escQuotes l = l := by
  induction l with
  | nil => rfl
  | cons c rest ih =>
    unfold escQuotes
    rw [if_neg (h c (List.mem_cons_self _ _)),
      ih (fun d hd => h d (List.mem_cons_of_mem _ hd))]
    rfl

/-- For a line of benign characters containing no `//`, the per-line
transformation leaves the text intact and escapes only the trailing
newline. -/
lemma transformLine_benign (l : List Char)
    (hb : ∀ c ∈ l, benignChar c = true) (hds : hasDoubleSlash l = false) :
    transformLine (l ++ ['\n']) = l ++ ['\\', 'n'] := by
  have hnb : ∀ c ∈ l, c ≠ '\\' := by
    intro c hc he
    have hbc := hb c hc
    rw [he] at hbc
    exact absurd hbc (by decide)
  have hnn : ∀ c ∈ l, c ≠ '\n' := by
    intro c hc he
    have hbc := hb c hc
    rw [he] at hbc
    exact absurd hbc (by decide)
  have hnq : ∀ c ∈ l, c ≠ '"' := by
    intro c hc he
    have hbc := hb c hc
    rw [he] at hbc
    exact absurd hbc (by decide)
  have hnw : ∀ c ∈ l, isSpaceNotNewline c = false := by
    intro c hc
    have hbc := hb c hc
    unfold benignChar at hbc
    unfold isSpaceNotNewline
    rcases Bool.and_eq_true_iff.mp hbc with ⟨hbc1, -⟩
    rcases Bool.and_eq_true_iff.mp hbc1 with ⟨hw, -⟩
    simp only [Bool.not_eq_eq_eq_not, Bool.not_true] at hw
    rw [hw]
    rfl
  unfold transformLine
  rw [stripComment_of_no_doubleSlash _
    (hasDoubleSlash_append_single '\n' (by decide) l hds)]
  rw [escBackslashes_id _ (by
    intro c hc
    rcases List.mem_append.mp hc with h | h
    · exact hnb c h
    · rcases List.mem_singleton.mp h with rfl
      decide)]
  rw [escNewlines_benign_line _ hnn]
  rw [collapseWhitespace_id _ (by
    intro c hc
    rcases List.mem_append.mp hc with h | h
    · exact hnw c h
    · rcases List.mem_cons.mp h with rfl | h2
      · rfl
      · rcases List.mem_singleton.mp h2 with rfl
        rfl) false]
  rw [escQuotes_id _ (by
    intro c hc
    rcases List.mem_append.mp hc with h | h
    · exact hnq c h
    · rcases List.mem_cons.mp h with rfl | h2
      · decide
      · rcases List.mem_singleton.mp h2 with rfl
        decide)]

/-- Counterexample to C9: the flush test runs only once per input line,
after the whole line has been appended, so a single 250-character line is
flushed as one 252-character segment followed by one empty final segment —
2 segments, not at least 3.  Moreover a line of 250 slashes (also
non-whitespace, non-quote, non-backslash) is eaten by the
comment-stripping pass, so its content is not reproduced at all. -/
theorem c9_counterexample :
    (((List.replicate 250 'a').length = 250 ∧
        (∀ c ∈ List.replicate 250 'a', benignChar c = true)) ∧
      ¬(3 ≤ (minifySegments [List.replicate 250 'a' ++ ['\n']]).length)) ∧
    (((List.replicate 250 '/').length = 250 ∧
        (∀ c ∈ List.replicate 250 '/', benignChar c = true)) ∧
      ¬((minifySegments [List.replicate 250 '/' ++ ['\n']]).flatten
          = List.replicate 250 '/' ++ ['\\', 'n'])) := by
  have hbenign : ∀ c ∈ List.replicate 250 'a', benignChar c = true := by
    intro c hc
    rw [List.eq_of_mem_replicate hc]
    rfl
  have hds : hasDoubleSlash (List.replicate 250 'a') = false := by decide
  have ht := transformLine_benign (List.replicate 250 'a') hbenign hds
  have hseg : minifySegments [List.replicate 250 'a' ++ ['\n']]
      = [List.replicate 250 'a' ++ ['\\', 'n'], []] := by
    unfold minifySegments minifyGo
    rw [List.nil_append, ht]
    rw [if_pos (by rw [List.length_append]; decide)]
    rfl
  refine ⟨⟨⟨rfl, hbenign⟩, ?_⟩, ⟨⟨rfl, ?_⟩, ?_⟩⟩
  · rw [hseg]
    decide
  · intro c hc
    rw [List.eq_of_mem_replicate hc]
    rfl
  · decide

/-- C9 corrected: for a single input line of 250 non-whitespace,
non-quote, non-backslash characters that does not contain `//`, the
minifier emits exactly 2 quoted string segments — the whole escaped line
as one segment (flushed because its 252 characters exceed 100; the flush
check runs only once per input line) followed by an empty final segment —
and the concatenation of the segments' contents exactly reproduces the
original line plus one trailing newline-escape sequence. -/
theorem c9_minifier_segments (l : List Char) (h250 : l.length = 250)
    (hb : ∀ c ∈ l, benignChar c = true) (hds : hasDoubleSlash l = false) :
    minifySegments [l ++ ['\n']] = [l ++ ['\\', 'n'], []] ∧
      (minifySegments [l ++ ['\n']]).flatten = l ++ ['\\', 'n'] := by
  have ht := transformLine_benign l hb hds
  have hseg : minifySegments [l ++ ['\n']] = [l ++ ['\\', 'n'], []] := by
    unfold minifySegments minifyGo
    rw [List.nil_append, ht]
    rw [if_pos (by rw [List.length_append, h250]; decide)]
    rfl
  refine ⟨hseg, ?_⟩
  rw [hseg]
  simp

/-- Witness for C9 corrected: a line of 250 letters yields the two
expected segments. -/
theorem c9_minifier_segments_witness :
    minifySegments [List.replicate 250 'b' ++ ['\n']]
      = [List.replicate 250 'b' ++ ['\\', 'n'], []] :=
  (c9_minifier_segments (List.replicate 250 'b') rfl
    (fun c hc => by rw [List.eq_of_mem_replicate hc]; rfl)
    (by decide)).1

end Aurora
